import Mathlib

/-!
Verification of the Leona App Store screenshot generators
(`generate_marketing_screenshots.py` and `generate_screenshots.py`).

Python numeric code is modelled over `ℚ` (over `ℝ` where the source uses
`math.exp`); Python `int(...)` is truncation toward zero (`pyint`).
Images are modelled as dimensions plus a pixel map; fallible PIL calls
(negative resize dimensions, tuple-unpacking arity errors) are modelled
with `Option` / `Except`.
-/

namespace Leona

/-- Python `int(q)` on a rational: truncation toward zero. -/
def pyint (q : ℚ) : ℤ := if q < 0 then ⌈q⌉ else ⌊q⌋

theorem pyint_of_nonneg (q : ℚ) (h : 0 ≤ q) : pyint q = ⌊q⌋ := by
  simp [pyint, not_lt.mpr h]

/-- An RGB color literal from the scripts: three channel values. -/
structure RGB where
  r : ℕ
  g : ℕ
  b : ℕ
deriving DecidableEq, Repr

/-- An interpolated color: Python ints per channel. -/
structure RGBi where
  r : ℤ
  g : ℤ
  b : ℤ
deriving DecidableEq, Repr

/-- `lerp(c1, c2, t)` (generate_marketing_screenshots.py line 100):
`tuple(int(a + (b - a) * t) for a, b in zip(c1, c2))`. -/
def lerp (c1 c2 : RGB) (t : ℚ) : RGBi :=
  ⟨pyint ((c1.r : ℚ) + ((c2.r : ℚ) - (c1.r : ℚ)) * t),
   pyint ((c1.g : ℚ) + ((c2.g : ℚ) - (c1.g : ℚ)) * t),
   pyint ((c1.b : ℚ) + ((c2.b : ℚ) - (c1.b : ℚ)) * t)⟩

/-- The smoothstep easing `t * t * (3 - 2 * t)` used by
`create_soft_gradient` (line 113). -/
def smoothstep (t : ℚ) : ℚ := t * t * (3 - 2 * t)

/-- Color of row `y` in `create_soft_gradient` (the loop body, lines
110-117): `t = y / h`, `t_eased = smoothstep t`, `pos = t_eased * (n - 1)`,
`idx = min(int(pos), n - 2)`, `frac = pos - idx`, then
`lerp(colors[idx], colors[idx + 1], frac)`. -/
def gradientRowColor (h : ℕ) (colors : List RGB) (y : ℕ) : RGBi :=
  let n := colors.length
  let t : ℚ := (y : ℚ) / (h : ℚ)
  let pos : ℚ := smoothstep t * ((n : ℚ) - 1)
  let idx : ℤ := min (pyint pos) ((n : ℤ) - 2)
  let frac : ℚ := pos - (idx : ℚ)
  lerp (colors.getD idx.toNat ⟨0, 0, 0⟩) (colors.getD (idx.toNat + 1) ⟨0, 0, 0⟩) frac

/-- A PIL RGBA image: dimensions plus a pixel map (color, alpha). -/
structure PImage where
  width : ℕ
  height : ℕ
  pixel : ℕ → ℕ → RGBi × ℤ

/-- `create_soft_gradient(size, colors)` (lines 104-119): starts from a
fully transparent `Image.new("RGBA", size)` and, for each row `y < h`,
draws the horizontal line `(0, y)–(w, y)` in the row color with alpha 255
(PIL clips the line to the image, so every column `0 ≤ x < w` of the row
is covered). -/
def create_soft_gradient (w h : ℕ) (colors : List RGB) : PImage :=
  ⟨w, h, fun _ y => if y < h then (gradientRowColor h colors y, 255) else (⟨0, 0, 0⟩, 0)⟩

/-- C10: for every requested size with `w ≥ 1`, `h ≥ 1` and a stop list of
at least two colors, `create_soft_gradient` returns an image of exactly
the requested width and height in which every pixel is fully opaque
(alpha channel 255). -/
theorem create_soft_gradient_opaque (w h : ℕ) (colors : List RGB)
    (hw : 1 ≤ w) (hh : 1 ≤ h) (hc : 2 ≤ colors.length) :
    (create_soft_gradient w h colors).width = w ∧
    (create_soft_gradient w h colors).height = h ∧
    ∀ x y, x < w → y < h → ((create_soft_gradient w h colors).pixel x y).2 = 255 := by
  refine ⟨rfl, rfl, fun x y _ hy => ?_⟩
  simp [create_soft_gradient, hy]

/-- Witness for C10 at the concrete size 2×3 with the two pink stops of
screen 1. -/
theorem create_soft_gradient_opaque_w :
    (create_soft_gradient 2 3 [⟨255, 230, 240⟩, ⟨250, 150, 190⟩]).width = 2 ∧
    (create_soft_gradient 2 3 [⟨255, 230, 240⟩, ⟨250, 150, 190⟩]).height = 3 ∧
    ∀ x y, x < 2 → y < 3 →
      ((create_soft_gradient 2 3 [⟨255, 230, 240⟩, ⟨250, 150, 190⟩]).pixel x y).2 = 255 :=
  create_soft_gradient_opaque 2 3 _ (by decide) (by decide) (by decide)

theorem smoothstep_nonneg {t : ℚ} (h0 : 0 ≤ t) (h1 : t ≤ 1) : 0 ≤ smoothstep t := by
  unfold smoothstep
  nlinarith [sq_nonneg t]

theorem smoothstep_lt_one {t : ℚ} (h0 : 0 ≤ t) (h1 : t < 1) : smoothstep t < 1 := by
  unfold smoothstep
  nlinarith [sq_nonneg (1 - t), mul_pos (mul_pos (sub_pos.mpr h1) (sub_pos.mpr h1))
    (by linarith : (0:ℚ) < 1 + 2 * t)]

theorem smoothstep_mono {t1 t2 : ℚ} (h0 : 0 ≤ t1) (h12 : t1 ≤ t2) (h1 : t2 ≤ 1) :
    smoothstep t1 ≤ smoothstep t2 := by
  have h0b : 0 ≤ t2 := h0.trans h12
  have h1a : t1 ≤ 1 := h12.trans h1
  unfold smoothstep
  nlinarith [mul_nonneg (sub_nonneg.mpr h12) (mul_nonneg h0 (sub_nonneg.mpr h1a)),
    mul_nonneg (sub_nonneg.mpr h12) (mul_nonneg h0b (sub_nonneg.mpr h1)),
    mul_nonneg (sub_nonneg.mpr h12) (mul_nonneg h0 (sub_nonneg.mpr h1)),
    mul_nonneg (sub_nonneg.mpr h12) (mul_nonneg h0b (sub_nonneg.mpr h1a))]

/-- With exactly two stops, the row color is a plain smoothstep-eased
interpolation between them: `pos ∈ [0, 1)`, so `idx = 0` and `frac = pos`. -/
theorem gradientRowColor_two (c0 c1 : RGB) (h y : ℕ) (hy : y < h) :
    gradientRowColor h [c0, c1] y = lerp c0 c1 (smoothstep ((y : ℚ) / (h : ℚ))) := by
  have hpos : 0 < h := lt_of_le_of_lt (Nat.zero_le y) hy
  have hq : (0:ℚ) < (h : ℚ) := by exact_mod_cast hpos
  have ht0 : 0 ≤ (y : ℚ) / (h : ℚ) := by positivity
  have ht1 : (y : ℚ) / (h : ℚ) < 1 := by
    rw [div_lt_one hq]
    exact_mod_cast hy
  have hs0 : 0 ≤ smoothstep ((y : ℚ) / (h : ℚ)) := smoothstep_nonneg ht0 ht1.le
  have hs1 : smoothstep ((y : ℚ) / (h : ℚ)) < 1 := smoothstep_lt_one ht0 ht1
  have e5 : pyint (smoothstep ((y : ℚ) / (h : ℚ))) = 0 := by
    rw [pyint_of_nonneg _ hs0]
    exact Int.floor_eq_zero_iff.mpr ⟨hs0, hs1⟩
  unfold gradientRowColor
  norm_num [e5]

theorem lerp_channel_mono_of_le (a b : ℕ) {s1 s2 : ℚ} (hab : a ≤ b)
    (h0 : 0 ≤ s1) (h12 : s1 ≤ s2) :
    pyint ((a : ℚ) + ((b : ℚ) - (a : ℚ)) * s1) ≤ pyint ((a : ℚ) + ((b : ℚ) - (a : ℚ)) * s2) := by
  have hb : (0:ℚ) ≤ (b : ℚ) - (a : ℚ) := sub_nonneg.mpr (by exact_mod_cast hab)
  have v1 : (0:ℚ) ≤ (a : ℚ) + ((b : ℚ) - (a : ℚ)) * s1 :=
    add_nonneg (Nat.cast_nonneg a) (mul_nonneg hb h0)
  have v2 : (0:ℚ) ≤ (a : ℚ) + ((b : ℚ) - (a : ℚ)) * s2 :=
    add_nonneg (Nat.cast_nonneg a) (mul_nonneg hb (h0.trans h12))
  rw [pyint_of_nonneg _ v1, pyint_of_nonneg _ v2]
  exact Int.floor_le_floor (by nlinarith [mul_le_mul_of_nonneg_left h12 hb])

theorem lerp_channel_anti_of_ge (a b : ℕ) {s1 s2 : ℚ} (hab : b ≤ a)
    (h0 : 0 ≤ s1) (h12 : s1 ≤ s2) (h1 : s2 ≤ 1) :
    pyint ((a : ℚ) + ((b : ℚ) - (a : ℚ)) * s2) ≤ pyint ((a : ℚ) + ((b : ℚ) - (a : ℚ)) * s1) := by
  have hb : ((b : ℚ) - (a : ℚ)) ≤ 0 := sub_nonpos.mpr (by exact_mod_cast hab)
  have hbn : (0:ℚ) ≤ (b : ℚ) := Nat.cast_nonneg b
  have v2 : (0:ℚ) ≤ (a : ℚ) + ((b : ℚ) - (a : ℚ)) * s2 := by
    nlinarith [mul_nonneg (neg_nonneg.mpr hb) (sub_nonneg.mpr h1)]
  have v1 : (0:ℚ) ≤ (a : ℚ) + ((b : ℚ) - (a : ℚ)) * s1 := by
    nlinarith [mul_nonneg (neg_nonneg.mpr hb) (sub_nonneg.mpr (h12.trans h1))]
  rw [pyint_of_nonneg _ v1, pyint_of_nonneg _ v2]
  exact Int.floor_le_floor (by nlinarith [mul_le_mul_of_nonpos_left h12 hb])

/-- C7: with two stops, the per-row colors of `create_soft_gradient` are
monotonic in the row index for every channel: when a channel of the first
stop is ≤ the corresponding channel of the second stop the channel value
never decreases from one row to a later row, and when it is ≥ it never
increases — the smoothstep-eased interpolation never reverses direction. -/
theorem gradient_two_stop_monotone (c0 c1 : RGB) (h y1 y2 : ℕ)
    (h12 : y1 ≤ y2) (h2 : y2 < h) :
    ((c0.r ≤ c1.r → (gradientRowColor h [c0, c1] y1).r ≤ (gradientRowColor h [c0, c1] y2).r) ∧
     (c1.r ≤ c0.r → (gradientRowColor h [c0, c1] y2).r ≤ (gradientRowColor h [c0, c1] y1).r)) ∧
    ((c0.g ≤ c1.g → (gradientRowColor h [c0, c1] y1).g ≤ (gradientRowColor h [c0, c1] y2).g) ∧
     (c1.g ≤ c0.g → (gradientRowColor h [c0, c1] y2).g ≤ (gradientRowColor h [c0, c1] y1).g)) ∧
    ((c0.b ≤ c1.b → (gradientRowColor h [c0, c1] y1).b ≤ (gradientRowColor h [c0, c1] y2).b) ∧
     (c1.b ≤ c0.b → (gradientRowColor h [c0, c1] y2).b ≤ (gradientRowColor h [c0, c1] y1).b)) := by
  have h1 : y1 < h := lt_of_le_of_lt h12 h2
  have hpos : 0 < h := lt_of_le_of_lt (Nat.zero_le y2) h2
  have hq : (0:ℚ) < (h : ℚ) := by exact_mod_cast hpos
  have ht10 : 0 ≤ (y1 : ℚ) / (h : ℚ) := by positivity
  have ht12 : (y1 : ℚ) / (h : ℚ) ≤ (y2 : ℚ) / (h : ℚ) := by
    gcongr
  have ht21 : (y2 : ℚ) / (h : ℚ) ≤ 1 := by
    rw [div_le_one hq]
    exact_mod_cast h2.le
  have hs0 : 0 ≤ smoothstep ((y1 : ℚ) / (h : ℚ)) :=
    smoothstep_nonneg ht10 (ht12.trans ht21)
  have hsm : smoothstep ((y1 : ℚ) / (h : ℚ)) ≤ smoothstep ((y2 : ℚ) / (h : ℚ)) :=
    smoothstep_mono ht10 ht12 ht21
  have hs1 : smoothstep ((y2 : ℚ) / (h : ℚ)) ≤ 1 :=
    (smoothstep_lt_one (ht10.trans ht12) (by rw [div_lt_one hq]; exact_mod_cast h2)).le
  rw [gradientRowColor_two c0 c1 h y1 h1, gradientRowColor_two c0 c1 h y2 h2]
  unfold lerp
  exact ⟨⟨fun hc => lerp_channel_mono_of_le _ _ hc hs0 hsm,
          fun hc => lerp_channel_anti_of_ge _ _ hc hs0 hsm hs1⟩,
         ⟨fun hc => lerp_channel_mono_of_le _ _ hc hs0 hsm,
          fun hc => lerp_channel_anti_of_ge _ _ hc hs0 hsm hs1⟩,
         ⟨fun hc => lerp_channel_mono_of_le _ _ hc hs0 hsm,
          fun hc => lerp_channel_anti_of_ge _ _ hc hs0 hsm hs1⟩⟩

/-- Witness for C7 at the pink 2-stop pair, rows 2 and 7 of height 10. -/
theorem gradient_two_stop_monotone_w :
    (((255:ℕ) ≤ 250 → (gradientRowColor 10 [⟨255, 230, 240⟩, ⟨250, 150, 190⟩] 2).r ≤ (gradientRowColor 10 [⟨255, 230, 240⟩, ⟨250, 150, 190⟩] 7).r) ∧
     ((250:ℕ) ≤ 255 → (gradientRowColor 10 [⟨255, 230, 240⟩, ⟨250, 150, 190⟩] 7).r ≤ (gradientRowColor 10 [⟨255, 230, 240⟩, ⟨250, 150, 190⟩] 2).r)) ∧
    (((230:ℕ) ≤ 150 → (gradientRowColor 10 [⟨255, 230, 240⟩, ⟨250, 150, 190⟩] 2).g ≤ (gradientRowColor 10 [⟨255, 230, 240⟩, ⟨250, 150, 190⟩] 7).g) ∧
     ((150:ℕ) ≤ 230 → (gradientRowColor 10 [⟨255, 230, 240⟩, ⟨250, 150, 190⟩] 7).g ≤ (gradientRowColor 10 [⟨255, 230, 240⟩, ⟨250, 150, 190⟩] 2).g)) ∧
    (((240:ℕ) ≤ 190 → (gradientRowColor 10 [⟨255, 230, 240⟩, ⟨250, 150, 190⟩] 2).b ≤ (gradientRowColor 10 [⟨255, 230, 240⟩, ⟨250, 150, 190⟩] 7).b) ∧
     ((190:ℕ) ≤ 240 → (gradientRowColor 10 [⟨255, 230, 240⟩, ⟨250, 150, 190⟩] 7).b ≤ (gradientRowColor 10 [⟨255, 230, 240⟩, ⟨250, 150, 190⟩] 2).b)) :=
  gradient_two_stop_monotone ⟨255, 230, 240⟩ ⟨250, 150, 190⟩ 10 2 7 (by decide) (by decide)

theorem pyint_natCast (n : ℕ) : pyint ((n : ℚ)) = (n : ℤ) := by
  rw [pyint_of_nonneg _ (Nat.cast_nonneg n)]
  exact Int.floor_natCast n

/-- `lerp` at fraction 0 returns the first color exactly (the channels are
integers, so `int(a + (b - a) * 0) = a`). -/
theorem lerp_zero (c0 c1 : RGB) : lerp c0 c1 0 = ⟨(c0.r : ℤ), (c0.g : ℤ), (c0.b : ℤ)⟩ := by
  unfold lerp
  simp [pyint_natCast]

/-- C5: with three stops and an even canvas height `h ≥ 2`,
`create_soft_gradient` renders the row at the vertical midpoint `y = h / 2`
in exactly the middle stop's color: `t = 1/2`, smoothstep fixes `1/2`, so
`pos = 1` lands exactly on stop index 1 with zero interpolation fraction. -/
theorem gradient_three_stop_midpoint (c0 c1 c2 : RGB) (w h x : ℕ)
    (hh : 2 ≤ h) (hev : h % 2 = 0) :
    ((create_soft_gradient w h [c0, c1, c2]).pixel x (h / 2)).1 =
      ⟨(c1.r : ℤ), (c1.g : ℤ), (c1.b : ℤ)⟩ := by
  have hlt : h / 2 < h := Nat.div_lt_self (by omega) (by omega)
  have h2n : h / 2 * 2 = h := by omega
  have h2q : ((h / 2 : ℕ) : ℚ) * 2 = (h : ℚ) := by exact_mod_cast h2n
  have h0 : ((h : ℚ)) ≠ 0 := by
    have hp : 0 < h := by omega
    exact_mod_cast hp.ne'
  have hq : ((h / 2 : ℕ) : ℚ) / (h : ℚ) = 1 / 2 := by
    rw [div_eq_div_iff h0 (by norm_num : (2:ℚ) ≠ 0)]
    linarith [h2q]
  have hpix : ((create_soft_gradient w h [c0, c1, c2]).pixel x (h / 2)).1
      = gradientRowColor h [c0, c1, c2] (h / 2) := by
    simp [create_soft_gradient, hlt]
  have hsm : smoothstep (((h / 2 : ℕ) : ℚ) / (h : ℚ)) = 1 / 2 := by
    rw [hq]
    unfold smoothstep
    norm_num
  rw [hpix]
  unfold gradientRowColor
  norm_num [hsm, pyint, lerp_zero]

/-- Witness for C5 at height 6, the three green stops of screen 3. -/
theorem gradient_three_stop_midpoint_w :
    ((create_soft_gradient 4 6 [⟨220, 245, 225⟩, ⟨170, 225, 185⟩, ⟨120, 200, 150⟩]).pixel 0 3).1 =
      ⟨170, 225, 185⟩ :=
  gradient_three_stop_midpoint ⟨220, 245, 225⟩ ⟨170, 225, 185⟩ ⟨120, 200, 150⟩ 4 6 0
    (by decide) (by decide)

/-- Channel-wise distance at most 1: "within rounding tolerance". -/
def withinRounding (a : RGBi) (c : RGB) : Prop :=
  (a.r - (c.r : ℤ)).natAbs ≤ 1 ∧ (a.g - (c.g : ℤ)).natAbs ≤ 1 ∧ (a.b - (c.b : ℤ)).natAbs ≤ 1

instance (a : RGBi) (c : RGB) : Decidable (withinRounding a c) := by
  unfold withinRounding
  infer_instance

/-- Row 0 of a two-stop gradient is exactly the first stop. -/
theorem gradientRowColor_two_zero (c0 c1 : RGB) (h : ℕ) (hh : 1 ≤ h) :
    gradientRowColor h [c0, c1] 0 = ⟨(c0.r : ℤ), (c0.g : ℤ), (c0.b : ℤ)⟩ := by
  rw [gradientRowColor_two c0 c1 h 0 hh]
  have hs : smoothstep (((0 : ℕ) : ℚ) / (h : ℚ)) = 0 := by
    rw [Nat.cast_zero, zero_div]
    unfold smoothstep
    ring
  rw [hs, lerp_zero]

/-- Row 99 of the 100-row gradient between the first and last pink stops:
`smoothstep (99/100) = 0.999702`, and truncation lands every channel
exactly on the second stop. -/
theorem gradientRowColor_row99 :
    gradientRowColor 100 [⟨255, 230, 240⟩, ⟨250, 150, 190⟩] 99 = ⟨250, 150, 190⟩ := by
  rw [gradientRowColor_two _ _ 100 99 (by norm_num)]
  have hs : smoothstep (((99 : ℕ) : ℚ) / ((100 : ℕ) : ℚ)) = 499851 / 500000 := by
    unfold smoothstep
    norm_num
  rw [hs]
  unfold lerp pyint
  norm_num

/-- Counterexample to C6 as stated: at canvas height `h = 1` (allowed by
the claim's "every canvas height h ≥ 1") the last row is row 0, which is
rendered in the first stop's color `(255, 230, 240)` — not within rounding
tolerance of the second stop `(250, 150, 190)` (the green channel is off
by 80). -/
theorem gradient_two_stop_last_row_cex :
    ((create_soft_gradient 100 1 [⟨255, 230, 240⟩, ⟨250, 150, 190⟩]).pixel 0 0).1 =
      ⟨255, 230, 240⟩ ∧
    ¬ withinRounding
        ((create_soft_gradient 100 1 [⟨255, 230, 240⟩, ⟨250, 150, 190⟩]).pixel 0 0).1
        ⟨250, 150, 190⟩ := by
  have hpix : ((create_soft_gradient 100 1 [⟨255, 230, 240⟩, ⟨250, 150, 190⟩]).pixel 0 0).1
      = gradientRowColor 1 [⟨255, 230, 240⟩, ⟨250, 150, 190⟩] 0 := by
    simp [create_soft_gradient]
  rw [hpix, gradientRowColor_two_zero _ _ 1 (by norm_num)]
  exact ⟨rfl, by decide⟩

/-- C6 (amended): for every 2-stop list and height `h ≥ 1`, row 0 is
rendered exactly in the first stop's color; and in the concrete scenario
with stops `[(255,230,240), (250,150,190)]` and height 100, row 0 is
`(255,230,240)` and row 99 is exactly `(250,150,190)` (in particular
within rounding tolerance of it). -/
theorem gradient_two_stop_endpoints (c0 c1 : RGB) (w h : ℕ) (hh : 1 ≤ h) :
    ((create_soft_gradient w h [c0, c1]).pixel 0 0).1 = ⟨(c0.r : ℤ), (c0.g : ℤ), (c0.b : ℤ)⟩ ∧
    ((create_soft_gradient 100 100 [⟨255, 230, 240⟩, ⟨250, 150, 190⟩]).pixel 0 99).1 =
      ⟨250, 150, 190⟩ ∧
    withinRounding
      ((create_soft_gradient 100 100 [⟨255, 230, 240⟩, ⟨250, 150, 190⟩]).pixel 0 99).1
      ⟨250, 150, 190⟩ := by
  have h0 : 0 < h := hh
  have hpix : ((create_soft_gradient w h [c0, c1]).pixel 0 0).1
      = gradientRowColor h [c0, c1] 0 := by
    simp [create_soft_gradient, h0]
  have hpix99 : ((create_soft_gradient 100 100 [⟨255, 230, 240⟩, ⟨250, 150, 190⟩]).pixel 0 99).1
      = gradientRowColor 100 [⟨255, 230, 240⟩, ⟨250, 150, 190⟩] 99 := by
    simp [create_soft_gradient]
  refine ⟨?_, ?_, ?_⟩
  · rw [hpix, gradientRowColor_two_zero c0 c1 h hh]
  · rw [hpix99, gradientRowColor_row99]
  · rw [hpix99, gradientRowColor_row99]
    decide

/-- Witness for C6 with a concrete 2-stop list at height 5. -/
theorem gradient_two_stop_endpoints_w :
    ((create_soft_gradient 3 5 [⟨10, 20, 30⟩, ⟨200, 100, 50⟩]).pixel 0 0).1 = ⟨10, 20, 30⟩ ∧
    ((create_soft_gradient 100 100 [⟨255, 230, 240⟩, ⟨250, 150, 190⟩]).pixel 0 99).1 =
      ⟨250, 150, 190⟩ ∧
    withinRounding
      ((create_soft_gradient 100 100 [⟨255, 230, 240⟩, ⟨250, 150, 190⟩]).pixel 0 99).1
      ⟨250, 150, 190⟩ :=
  gradient_two_stop_endpoints ⟨10, 20, 30⟩ ⟨200, 100, 50⟩ 3 5 (by decide)

/-- Geometry of a device mockup frame: full canvas size, bezel, inner
(screen) region size and paste position, body rectangle size and offset. -/
structure DeviceFrame where
  imgW : ℤ
  imgH : ℤ
  bezel : ℤ
  innerW : ℤ
  innerH : ℤ
  frameW : ℤ
  frameH : ℤ
  ox : ℤ
  oy : ℤ
  innerX : ℤ
  innerY : ℤ
deriving DecidableEq, Repr

/-- `build_iphone_frame(screenshot, frame_w)` (lines 169-295):
`bezel = max(int(frame_w * 0.022), 5)`, `inner_w = frame_w - bezel * 2`,
`scale = inner_w / sw`, `inner_h = int(sh * scale)`,
`frame_h = inner_h + bezel * 2`; the RGBA canvas is
`(frame_w + 8, frame_h + 8)` (+8 for the side buttons), the body is drawn
at offset `(ox, oy) = (4, 4)` spanning `frame_w × frame_h`, and the scaled
screenshot is pasted at `(ox + bezel, oy + bezel)`.  PIL raises
`ValueError` ("height and width must be > 0") when
`screenshot.resize((inner_w, inner_h))` is given any dimension < 1
(a negative canvas size is subsumed), modelled as `none`. -/
def build_iphone_frame (sw sh frame_w : ℕ) : Option DeviceFrame :=
  let bezel : ℤ := max (pyint ((frame_w : ℚ) * (22 / 1000))) 5
  let inner_w : ℤ := (frame_w : ℤ) - bezel * 2
  let scale : ℚ := (inner_w : ℚ) / (sw : ℚ)
  let inner_h : ℤ := pyint ((sh : ℚ) * scale)
  let frame_h : ℤ := inner_h + bezel * 2
  if inner_w < 1 ∨ inner_h < 1 then none
  else some ⟨(frame_w : ℤ) + 8, frame_h + 8, bezel, inner_w, inner_h,
             (frame_w : ℤ), frame_h, 4, 4, 4 + bezel, 4 + bezel⟩

/-- `build_ipad_frame(screenshot, frame_w)` (lines 298-361):
`bezel = max(int(frame_w * 0.018), 5)`, same inner geometry, canvas
exactly `(frame_w, frame_h)`, body at offset `(0, 0)`, screenshot pasted
at `(bezel, bezel)`. -/
def build_ipad_frame (sw sh frame_w : ℕ) : Option DeviceFrame :=
  let bezel : ℤ := max (pyint ((frame_w : ℚ) * (18 / 1000))) 5
  let inner_w : ℤ := (frame_w : ℤ) - bezel * 2
  let scale : ℚ := (inner_w : ℚ) / (sw : ℚ)
  let inner_h : ℤ := pyint ((sh : ℚ) * scale)
  let frame_h : ℤ := inner_h + bezel * 2
  if inner_w < 1 ∨ inner_h < 1 then none
  else some ⟨(frame_w : ℤ), frame_h, bezel, inner_w, inner_h,
             (frame_w : ℤ), frame_h, 0, 0, bezel, bezel⟩

/-- Evaluation of the iPhone builder on a 100×200 screenshot at target
frame width 300. -/
theorem build_iphone_frame_eval :
    build_iphone_frame 100 200 300 =
      some ⟨308, 596, 6, 288, 576, 300, 588, 4, 4, 10, 10⟩ := by
  unfold build_iphone_frame pyint
  norm_num

/-- Counterexample to C2 as stated: at target frame width 1 (allowed by
the claim's "every target frame width ≥ 1") and a 1×1 screenshot, the
bezel is clamped to 5, so the inner width is `1 - 10 = -9 < 1` and the
`resize` call raises `ValueError` — no image is produced. -/
theorem build_iphone_frame_fw1_cex : build_iphone_frame 1 1 1 = none := by
  unfold build_iphone_frame pyint
  norm_num

/-- C2 (amended): whenever either frame builder returns an image (for any
screenshot with positive dimensions and any target frame width ≥ 1 for
which both computed inner dimensions are positive — PIL's `resize`
requires dimensions > 0), the inner content region sits at offset exactly
the bezel from every side of the outer rounded-rectangle body, and the
bezel is at least the declared minimum of 5 px — so the inner region lies
strictly within the outer boundary. -/
theorem device_frame_bezel (sw sh fw : ℕ) (g : DeviceFrame)
    (hsw : 1 ≤ sw) (hsh : 1 ≤ sh) (hfw : 1 ≤ fw)
    (hbuild : build_iphone_frame sw sh fw = some g ∨ build_ipad_frame sw sh fw = some g) :
    5 ≤ g.bezel ∧
    g.innerX - g.ox = g.bezel ∧
    (g.ox + g.frameW) - (g.innerX + g.innerW) = g.bezel ∧
    g.innerY - g.oy = g.bezel ∧
    (g.oy + g.frameH) - (g.innerY + g.innerH) = g.bezel := by
  rcases hbuild with h | h
  · simp only [build_iphone_frame] at h
    split at h
    · exact absurd h (by simp)
    · injection h with h
      subst h
      refine ⟨le_max_right _ 5, by ring, by ring, by ring, by ring⟩
  · simp only [build_ipad_frame] at h
    split at h
    · exact absurd h (by simp)
    · injection h with h
      subst h
      refine ⟨le_max_right _ 5, by ring, by ring, by ring, by ring⟩

/-- Witness for C2 at the 100×200 screenshot and frame width 300. -/
theorem device_frame_bezel_w :
    5 ≤ (⟨308, 596, 6, 288, 576, 300, 588, 4, 4, 10, 10⟩ : DeviceFrame).bezel ∧
    (⟨308, 596, 6, 288, 576, 300, 588, 4, 4, 10, 10⟩ : DeviceFrame).innerX -
      (⟨308, 596, 6, 288, 576, 300, 588, 4, 4, 10, 10⟩ : DeviceFrame).ox =
      (⟨308, 596, 6, 288, 576, 300, 588, 4, 4, 10, 10⟩ : DeviceFrame).bezel ∧
    ((⟨308, 596, 6, 288, 576, 300, 588, 4, 4, 10, 10⟩ : DeviceFrame).ox +
      (⟨308, 596, 6, 288, 576, 300, 588, 4, 4, 10, 10⟩ : DeviceFrame).frameW) -
      ((⟨308, 596, 6, 288, 576, 300, 588, 4, 4, 10, 10⟩ : DeviceFrame).innerX +
       (⟨308, 596, 6, 288, 576, 300, 588, 4, 4, 10, 10⟩ : DeviceFrame).innerW) =
      (⟨308, 596, 6, 288, 576, 300, 588, 4, 4, 10, 10⟩ : DeviceFrame).bezel ∧
    (⟨308, 596, 6, 288, 576, 300, 588, 4, 4, 10, 10⟩ : DeviceFrame).innerY -
      (⟨308, 596, 6, 288, 576, 300, 588, 4, 4, 10, 10⟩ : DeviceFrame).oy =
      (⟨308, 596, 6, 288, 576, 300, 588, 4, 4, 10, 10⟩ : DeviceFrame).bezel ∧
    ((⟨308, 596, 6, 288, 576, 300, 588, 4, 4, 10, 10⟩ : DeviceFrame).oy +
      (⟨308, 596, 6, 288, 576, 300, 588, 4, 4, 10, 10⟩ : DeviceFrame).frameH) -
      ((⟨308, 596, 6, 288, 576, 300, 588, 4, 4, 10, 10⟩ : DeviceFrame).innerY +
       (⟨308, 596, 6, 288, 576, 300, 588, 4, 4, 10, 10⟩ : DeviceFrame).innerH) =
      (⟨308, 596, 6, 288, 576, 300, 588, 4, 4, 10, 10⟩ : DeviceFrame).bezel :=
  device_frame_bezel 100 200 300 ⟨308, 596, 6, 288, 576, 300, 588, 4, 4, 10, 10⟩
    (by decide) (by decide) (by decide) (Or.inl build_iphone_frame_eval)

/-- C3: `build_iphone_frame` on a 100×200 screenshot with target frame
width 300 computes bezel `max(int(300 × 0.022), 5) = 6`, inner width 288,
inner height 576, and the output canvas is 308 wide and 596 tall
(frame height 588 plus the +8 side-button clearance), in particular at
least 584 tall. -/
theorem iphone_frame_scenario :
    ∃ g, build_iphone_frame 100 200 300 = some g ∧
      g.bezel = 6 ∧ g.innerW = 288 ∧ g.innerH = 576 ∧
      g.imgW = 308 ∧ g.imgH = 596 ∧ 584 ≤ g.imgH := by
  exact ⟨⟨308, 596, 6, 288, 576, 300, 588, 4, 4, 10, 10⟩, build_iphone_frame_eval,
    rfl, rfl, rfl, rfl, rfl, by norm_num⟩

/-- One entry of the `SCREENS` table: source screenshot file name and
output file name. -/
structure Screen where
  file : String
  out : String
deriving DecidableEq, Repr

/-- File-system skeleton of `generate(screen, input_dir, output_dir,
canvas_size, device_type)` (lines 379-474 of
generate_marketing_screenshots.py): the source path is
`os.path.join(input_dir, screen["file"])`; if it does not exist, the
function prints `"  ⚠ Missing: " + src` and returns before opening the
file or creating any canvas; otherwise it renders and saves
`os.path.join(output_dir, screen["out"])`.  The first component is the
set of existing paths after the call, the second the printed log. -/
def generate (fs : List String) (inputDir outputDir : String) (scr : Screen) :
    List String × List String :=
  let src := inputDir ++ "/" ++ scr.file
  if src ∈ fs then (fs ++ [outputDir ++ "/" ++ scr.out], [])
  else (fs, ["  ⚠ Missing: " ++ src])

/-- The batch loops of `main` (lines 480-494): `generate` over the list of
screens, threading the file system and collecting the logs. -/
def runBatch (fs : List String) (inputDir outputDir : String) :
    List Screen → List String × List String
  | [] => (fs, [])
  | scr :: rest =>
      let r := generate fs inputDir outputDir scr
      let r2 := runBatch r.1 inputDir outputDir rest
      (r2.1, r.2 ++ r2.2)

/-- C9: when the source screenshot path does not exist, `generate` does
not raise: it logs exactly the warning and leaves the file system
unchanged — in particular no output file is written — and a batch
containing the missing screen produces the same file system as the batch
without it (no state carries over between calls). -/
theorem generate_missing_skips (fs : List String) (inputDir outputDir : String)
    (scr : Screen) (rest : List Screen)
    (hmiss : (inputDir ++ "/" ++ scr.file) ∉ fs) :
    (generate fs inputDir outputDir scr).1 = fs ∧
    (generate fs inputDir outputDir scr).2 =
      ["  ⚠ Missing: " ++ (inputDir ++ "/" ++ scr.file)] ∧
    ((outputDir ++ "/" ++ scr.out) ∉ fs →
      (outputDir ++ "/" ++ scr.out) ∉ (generate fs inputDir outputDir scr).1) ∧
    (runBatch fs inputDir outputDir (scr :: rest)).1 =
      (runBatch fs inputDir outputDir rest).1 := by
  have hgen : generate fs inputDir outputDir scr =
      (fs, ["  ⚠ Missing: " ++ (inputDir ++ "/" ++ scr.file)]) := by
    simp [generate, hmiss]
  refine ⟨by rw [hgen], by rw [hgen], fun ho => by rw [hgen]; exact ho, ?_⟩
  simp [runBatch, hgen]

/-- Witness for C9: an empty file system misses the first screen's source. -/
theorem generate_missing_skips_w :
    (generate [] "iPhone" "Out" ⟨"01_Onboarding.png", "01_Welcome.png"⟩).1 = [] ∧
    (generate [] "iPhone" "Out" ⟨"01_Onboarding.png", "01_Welcome.png"⟩).2 =
      ["  ⚠ Missing: " ++ ("iPhone" ++ "/" ++ "01_Onboarding.png")] ∧
    (("Out" ++ "/" ++ "01_Welcome.png") ∉ ([] : List String) →
      ("Out" ++ "/" ++ "01_Welcome.png") ∉
        (generate [] "iPhone" "Out" ⟨"01_Onboarding.png", "01_Welcome.png"⟩).1) ∧
    (runBatch [] "iPhone" "Out" [⟨"01_Onboarding.png", "01_Welcome.png"⟩]).1 =
      (runBatch [] "iPhone" "Out" []).1 :=
  generate_missing_skips [] "iPhone" "Out" ⟨"01_Onboarding.png", "01_Welcome.png"⟩ []
    (by simp)

/-- An abstract pseudo-random generator in the style of Python's `random`
module: a state type, `seed`, and the two drawing primitives the scripts
use. -/
structure RNG where
  State : Type
  seed : ℕ → State
  randint : ℤ → ℤ → State → ℤ × State
  uniform : ℚ → ℚ → State → ℚ × State

/-- A decorative background bubble: center, radius and opacity. -/
structure Bubble where
  x : ℤ
  y : ℤ
  r : ℤ
  opacity : ℤ

/-- One iteration of the bubble loop in `draw_soft_shapes` (lines
153-159): `bx = randint(int(cw*0.05), int(cw*0.95))`,
`by = randint(int(ch*0.02), int(ch*0.32))`,
`br = randint(int(cw*0.01), int(cw*0.025))`, `opacity = randint(25, 50)`. -/
def bubbleStep (g : RNG) (cw ch : ℕ) (s : g.State) : Bubble × g.State :=
  let p1 := g.randint (pyint ((cw : ℚ) * (5 / 100))) (pyint ((cw : ℚ) * (95 / 100))) s
  let p2 := g.randint (pyint ((ch : ℚ) * (2 / 100))) (pyint ((ch : ℚ) * (32 / 100))) p1.2
  let p3 := g.randint (pyint ((cw : ℚ) * (1 / 100))) (pyint ((cw : ℚ) * (25 / 1000))) p2.2
  let p4 := g.randint 25 50 p3.2
  (⟨p1.1, p2.1, p3.1, p4.1⟩, p4.2)

def bubbleLoop (g : RNG) (cw ch : ℕ) : ℕ → g.State → List Bubble × g.State
  | 0, s => ([], s)
  | n + 1, s =>
      let p := bubbleStep g cw ch s
      let r := bubbleLoop g cw ch n p.2
      (p.1 :: r.1, r.2)

/-- The decorative-bubble placement of `draw_soft_shapes` (lines 149-159):
`random.seed(42)` resets the generator — the incoming state `s0` is
discarded — then 8 bubbles are drawn. -/
def draw_soft_shapes_bubbles (g : RNG) (cw ch : ℕ) (s0 : g.State) : List Bubble :=
  (bubbleLoop g cw ch 8 (g.seed 42)).1

/-- One day's stacked-bar heights in `shot4`
(generate_screenshots.py line 541):
`[uniform(80, 160), uniform(25, 70), uniform(12, 45), uniform(8, 30)]`. -/
def barStep (g : RNG) (s : g.State) : (ℚ × ℚ × ℚ × ℚ) × g.State :=
  let p1 := g.uniform 80 160 s
  let p2 := g.uniform 25 70 p1.2
  let p3 := g.uniform 12 45 p2.2
  let p4 := g.uniform 8 30 p3.2
  ((p1.1, p2.1, p3.1, p4.1), p4.2)

def barLoop (g : RNG) : ℕ → g.State → List (ℚ × ℚ × ℚ × ℚ) × g.State
  | 0, s => ([], s)
  | n + 1, s =>
      let p := barStep g s
      let r := barLoop g n p.2
      (p.1 :: r.1, r.2)

/-- The decorative bar heights of `shot4` (lines 536-541):
`random.seed(42)` then 7 days of 4 uniform draws each. -/
def shot4_bar_heights (g : RNG) (s0 : g.State) : List (ℚ × ℚ × ℚ × ℚ) :=
  (barLoop g 7 (g.seed 42)).1

/-- C8: because both draw sites reseed the generator with the fixed
constant 42 immediately before drawing, the bubble parameters and the bar
heights are independent of the incoming generator state: two runs (or two
calls) with the same canvas dimensions produce identical bubble positions,
radii, opacities, and identical bar-segment heights, whatever the
generator implementation. -/
theorem seeded_draws_deterministic (g : RNG) (cw ch : ℕ) (s0 s1 : g.State) :
    draw_soft_shapes_bubbles g cw ch s0 = draw_soft_shapes_bubbles g cw ch s1 ∧
    shot4_bar_heights g s0 = shot4_bar_heights g s1 :=
  ⟨rfl, rfl⟩

/-- A Python literal value occurring in the percentile tuple list. -/
inductive PyVal
  | num (q : ℚ)
  | str (s : String)
deriving DecidableEq, Repr

/-- The literal list of generate_screenshots.py line 381:
`[(0.25, "P97"), (0.5, "P50"), (0.78, "P3")]` — three 2-element tuples. -/
def percentileItems : List (List PyVal) :=
  [[.num (25 / 100), .str "P97"], [.num (5 / 10), .str "P50"], [.num (78 / 100), .str "P3"]]

/-- Python tuple unpacking `pct, pct_y_frac, label = item`: binds three
names, so it succeeds iff the tuple has exactly three components and
otherwise raises `ValueError`. -/
def unpack3 (item : List PyVal) : Except String (PyVal × PyVal × PyVal) :=
  match item with
  | [a, b, c] => .ok (a, b, c)
  | l =>
      if l.length < 3 then
        .error ("ValueError: not enough values to unpack (expected 3, got "
          ++ toString l.length ++ ")")
      else .error "ValueError: too many values to unpack (expected 3)"

/-- The dashed percentile-line loop of `shot3` (lines 381-385): each
iteration begins by unpacking the tuple into `pct, pct_y_frac, label`;
the loop — and with it the rest of the screenshot — completes only if
every unpacking succeeds. -/
def shot3PercentileLoop : Except String (List (PyVal × PyVal × PyVal)) :=
  percentileItems.mapM unpack3

/-- C1 (code bug): the percentile loop of `shot3` raises `ValueError` on
its first iteration — three names `pct, pct_y_frac, label` cannot be bound
from the 2-element tuple `(0.25, "P97")` — so no dashed reference line or
percentile label is ever drawn and the screenshot is not completed. -/
theorem shot3_percentile_loop_raises :
    shot3PercentileLoop =
      .error "ValueError: not enough values to unpack (expected 3, got 2)" := by
  rfl

/-- Python `int(x)` on a real (the growth curve uses `math.exp`, so this
part of the model lives over `ℝ`): truncation toward zero. -/
noncomputable def pyintR (x : ℝ) : ℤ := if x < 0 then ⌈x⌉ else ⌊x⌋

theorem pyintR_of_nonneg (x : ℝ) (h : 0 ≤ x) : pyintR x = ⌊x⌋ := by
  simp [pyintR, not_lt.mpr h]

/-- The growth-curve weight model of `shot3` (line 393):
`weight = 3.0 + 5.5 * (1 - math.exp(-2.5 * t))`. -/
noncomputable def growthWeight (t : ℝ) : ℝ := 3 + 5.5 * (1 - Real.exp (-2.5 * t))

/-- x-pixel of sample `i` of 30 (lines 389-391):
`px = chart_x + int(t * chart_w)` with `t = i / 29`. -/
noncomputable def growthPx (chartX chartW : ℕ) (i : ℕ) : ℤ :=
  (chartX : ℤ) + pyintR ((i : ℝ) / 29 * (chartW : ℝ))

/-- y-pixel of sample `i` of 30 (line 394):
`py = y + chart_h - int(((weight - 0) / 10.0) * chart_h)`, scaling against
the fixed 10 kg axis maximum. -/
noncomputable def growthPy (y chartH : ℕ) (i : ℕ) : ℤ :=
  (y : ℤ) + (chartH : ℤ) - pyintR ((growthWeight ((i : ℝ) / 29) - 0) / 10 * (chartH : ℝ))

theorem growthWeight_lower {t : ℝ} (ht : 0 ≤ t) : 3 ≤ growthWeight t := by
  have he : Real.exp (-2.5 * t) ≤ 1 := Real.exp_le_one_iff.mpr (by nlinarith)
  unfold growthWeight
  nlinarith

theorem growthWeight_upper (t : ℝ) : growthWeight t < 8.5 := by
  have he : 0 < Real.exp (-2.5 * t) := Real.exp_pos _
  unfold growthWeight
  nlinarith

/-- C4: for the 30 growth-curve samples with `t = i/29`, the mapped
x-pixel coordinate is non-decreasing in `i`, and every mapped y-pixel
coordinate lies within the chart's vertical pixel bounds
`[y, y + chart_h]` (the weight `3 + 5.5·(1 − e^(−2.5 t))` stays within the
fixed 10 kg axis maximum). -/
theorem growth_curve_samples (chartX chartW y chartH : ℕ) (i j : ℕ)
    (hij : i ≤ j) (hj : j ≤ 29) :
    growthPx chartX chartW i ≤ growthPx chartX chartW j ∧
    (y : ℤ) ≤ growthPy y chartH i ∧
    growthPy y chartH i ≤ (y : ℤ) + (chartH : ℤ) := by
  have hti : (0 : ℝ) ≤ (i : ℝ) / 29 := by positivity
  have hwl : 3 ≤ growthWeight ((i : ℝ) / 29) := growthWeight_lower hti
  have hwu : growthWeight ((i : ℝ) / 29) < 8.5 := growthWeight_upper _
  have hv0 : (0 : ℝ) ≤ (growthWeight ((i : ℝ) / 29) - 0) / 10 * (chartH : ℝ) := by
    have h3 : (0 : ℝ) ≤ growthWeight ((i : ℝ) / 29) - 0 := by linarith
    positivity
  have hvch : (growthWeight ((i : ℝ) / 29) - 0) / 10 * (chartH : ℝ) ≤ (chartH : ℝ) := by
    have hch : (0 : ℝ) ≤ (chartH : ℝ) := Nat.cast_nonneg chartH
    nlinarith
  have hfl0 : (0 : ℤ) ≤ ⌊(growthWeight ((i : ℝ) / 29) - 0) / 10 * (chartH : ℝ)⌋ :=
    Int.floor_nonneg.mpr hv0
  have hflch : ⌊(growthWeight ((i : ℝ) / 29) - 0) / 10 * (chartH : ℝ)⌋ ≤ (chartH : ℤ) := by
    have hle := Int.floor_le_floor hvch
    rwa [Int.floor_natCast] at hle
  refine ⟨?_, ?_, ?_⟩
  · have ha : (0 : ℝ) ≤ (i : ℝ) / 29 * (chartW : ℝ) := by positivity
    have hb : (i : ℝ) / 29 * (chartW : ℝ) ≤ (j : ℝ) / 29 * (chartW : ℝ) := by
      have hmono : (i : ℝ) / 29 ≤ (j : ℝ) / 29 := by gcongr
      exact mul_le_mul_of_nonneg_right hmono (Nat.cast_nonneg chartW)
    unfold growthPx
    rw [pyintR_of_nonneg _ ha, pyintR_of_nonneg _ (ha.trans hb)]
    exact add_le_add_left (Int.floor_le_floor hb) _
  · unfold growthPy
    rw [pyintR_of_nonneg _ hv0]
    omega
  · unfold growthPy
    rw [pyintR_of_nonneg _ hv0]
    omega

/-- Witness for C4 at chart geometry `(0, 100, 0, 100)` and samples 0, 1. -/
theorem growth_curve_samples_w :
    growthPx 0 100 0 ≤ growthPx 0 100 1 ∧
    ((0 : ℕ) : ℤ) ≤ growthPy 0 100 0 ∧
    growthPy 0 100 0 ≤ ((0 : ℕ) : ℤ) + ((100 : ℕ) : ℤ) :=
  growth_curve_samples 0 100 0 100 0 1 (by decide) (by decide)

end Leona
